import Mathlib

/-!
Shallow embedding of the inventory-system core (branch inventory ledger,
purchase-order workflow, stock-transfer workflow, sale transaction engine,
manual stock adjustment) translated from the Python source under
`app/routers/{inventory,procurement,stock_transfer,sale}.py` and the data
model under `app/models/`.

Conventions of the embedding:
* product and branch ids are `Nat`; money amounts are `ℚ` (Python floats
  carrying exact decimal business values); quantities are `Int`
  (unbounded Python ints).
* the Mongo `inventory` collection is an association list from the key
  `(product_id, branch_id)` to the stored `quantity`; `find_one` is
  first-match lookup, `save` rewrites the first matching record in place,
  `insert` appends a new record.
* each endpoint becomes a pure function; request-level failures
  (HTTPException) become an `ApiErr` value.  Operations that persist
  inventory records one by one inside a loop return the inventory state as
  persisted so far when they fail partway, mirroring the absence of a
  transaction in the source: `Except (ApiErr × Ledger) …`.
* authentication / role / branch-membership checks and timestamps are
  outside the modelled core (the claims quantify over authorized actors).
-/

deriving instance DecidableEq for Except

/-- Error taxonomy of the spec mapped onto the HTTPExceptions the routers
raise: 404 lookups, insufficient-stock 400s, wrong-workflow-state 400s,
validation 400s, and role 403s. -/
inductive ApiErr where
  | notFound
  | insufficientStock
  | invalidTransition
  | validationError
  | forbidden
  deriving DecidableEq, Repr

/-- The inventory collection: one record per (product_id, branch_id) key,
holding the stored quantity.  Python int quantities are unbounded, so the
stored value is `Int` (which is what lets the embedding express a quantity
going negative). -/
abbrev Ledger : Type := List ((Nat × Nat) × Int)

/-- `Inventory.find_one({"product_id": p, "branch_id": b})`: first matching
record's quantity. -/
def findLed : Ledger → (Nat × Nat) → Option Int
  | [], _ => none
  | e :: rest, k => if e.1 = k then some e.2 else findLed rest k

/-- `inventory.save()` after mutating a fetched record: rewrite the first
record with this key. -/
def setLed (inv : Ledger) (k : Nat × Nat) (q : Int) : Ledger :=
  match inv with
  | [] => []
  | e :: rest => if e.1 = k then (k, q) :: rest else e :: setLed rest k q

/-- `new_inventory.insert()`: append a fresh record. -/
def insertLed (inv : Ledger) (k : Nat × Nat) (q : Int) : Ledger :=
  inv ++ [(k, q)]

/-- Every stored quantity is non-negative. -/
def LedgerNonneg (inv : Ledger) : Prop := ∀ e ∈ inv, 0 ≤ e.2

instance (inv : Ledger) : Decidable (LedgerNonneg inv) := by
  unfold LedgerNonneg; infer_instance

theorem findLed_setLed_self (inv : Ledger) (k : Nat × Nat) (q : Int) :
    findLed (setLed inv k q) k = if (findLed inv k).isSome then some q else none := by
  induction inv with
  | nil => simp [findLed, setLed]
  | cons e rest ih =>
    by_cases h : e.1 = k
    · simp [findLed, setLed, h]
    · simp [findLed, setLed, h, ih]

theorem findLed_setLed_ne (inv : Ledger) (k k' : Nat × Nat) (q : Int) (h : k' ≠ k) :
    findLed (setLed inv k q) k' = findLed inv k' := by
  induction inv with
  | nil => simp [setLed]
  | cons e rest ih =>
    by_cases he : e.1 = k
    · simp [setLed, findLed, he, Ne.symm h, ih]
    · by_cases hk' : e.1 = k'
      · simp [setLed, findLed, he, hk', h]
      · simp [setLed, findLed, he, hk', ih]

theorem findLed_setLed_isSome (inv : Ledger) (k k' : Nat × Nat) (q : Int) :
    (findLed (setLed inv k q) k').isSome = (findLed inv k').isSome := by
  by_cases h : k' = k
  · subst h; rw [findLed_setLed_self]
    by_cases hs : (findLed inv k').isSome <;> simp [hs]
  · rw [findLed_setLed_ne _ _ _ _ h]

theorem ledgerNonneg_setLed {inv : Ledger} (h : LedgerNonneg inv) (k : Nat × Nat) {q : Int}
    (hq : 0 ≤ q) : LedgerNonneg (setLed inv k q) := by
  induction inv with
  | nil => intro e he; simp [setLed] at he
  | cons e rest ih =>
    intro e' he'
    by_cases hk : e.1 = k
    · simp only [setLed, if_pos hk] at he'
      rcases List.mem_cons.mp he' with he' | he'
      · simp [he', hq]
      · exact h e' (List.mem_cons_of_mem _ he')
    · simp only [setLed, if_neg hk] at he'
      rcases List.mem_cons.mp he' with he' | he'
      · exact h e' (he' ▸ List.mem_cons_self _ _)
      · exact ih (fun x hx => h x (List.mem_cons_of_mem _ hx)) e' he'

theorem ledgerNonneg_insertLed {inv : Ledger} (h : LedgerNonneg inv) (k : Nat × Nat) {q : Int}
    (hq : 0 ≤ q) : LedgerNonneg (insertLed inv k q) := by
  intro e he
  rcases List.mem_append.mp he with he | he
  · exact h e he
  · simp at he; simp [he, hq]

theorem ledgerNonneg_find {inv : Ledger} (h : LedgerNonneg inv) {k : Nat × Nat} {v : Int}
    (hf : findLed inv k = some v) : 0 ≤ v := by
  induction inv with
  | nil => simp [findLed] at hf
  | cons e rest ih =>
    by_cases he : e.1 = k
    · simp [findLed, he] at hf
      exact hf ▸ h e (List.mem_cons_self _ _)
    · simp only [findLed, if_neg he] at hf
      exact ih (fun x hx => h x (List.mem_cons_of_mem _ hx)) hf

/-! ## Sale transaction engine (`app/routers/sale.py`) -/

inductive SaleStatus where
  | completed
  | cancelled
  | refunded
  deriving DecidableEq, Repr

/-- Request line item (`SaleItemCreate`): product and quantity (schema
requires `quantity > 0`). -/
structure SaleItemIn where
  product_id : Nat
  quantity : Int
  deriving DecidableEq, Repr

/-- Snapshot line item embedded in a `Sale` document (`SaleItem`); the
catalog snapshot fields (name, sku, barcode) are outside the modelled
core. -/
structure SaleItem where
  product_id : Nat
  quantity_sold : Int
  unit_price : ℚ
  line_total : ℚ
  deriving DecidableEq, Repr

/-- The `Sale` document fields the claims are about. -/
structure Sale where
  branch_id : Nat
  items : List SaleItem
  subtotal : ℚ
  tax : ℚ
  discount : ℚ
  total_amount : ℚ
  amount_paid : ℚ
  change_given : ℚ
  status : SaleStatus
  deriving DecidableEq, Repr

/-- `create_sale` step 4: per-item loop that looks up the product, looks up
the branch inventory, and fails on missing product/inventory or
insufficient stock; accumulates the snapshot items and the subtotal.
It reads but does not write the ledger. -/
def validateItems (prices : Nat → Option ℚ) (inv : Ledger) (branch : Nat) :
    List SaleItemIn → Except ApiErr (List SaleItem × ℚ)
  | [] => .ok ([], 0)
  | it :: rest =>
    match prices it.product_id with
    | none => .error .notFound
    | some price =>
      match findLed inv (it.product_id, branch) with
      | none => .error .notFound
      | some q =>
        if q < it.quantity then .error .insufficientStock
        else
          match validateItems prices inv branch rest with
          | .error e => .error e
          | .ok (items, sub) =>
            .ok (⟨it.product_id, it.quantity, price, (it.quantity : ℚ) * price⟩ :: items,
                 (it.quantity : ℚ) * price + sub)

/-- `create_sale` step 8: for each request item, re-fetch the inventory
record and save it with the quantity deducted.  There is no stock check in
this loop.  (The `none` branch is unreachable after `validateItems`
succeeded — the Python code would raise on a missing record.) -/
def applyDeductions (branch : Nat) : List SaleItemIn → Ledger → Ledger
  | [], inv => inv
  | it :: rest, inv =>
    match findLed inv (it.product_id, branch) with
    | some q => applyDeductions branch rest (setLed inv (it.product_id, branch) (q - it.quantity))
    | none => applyDeductions branch rest inv

/-- `create_sale` (`sale.py:180-329`): validate every line against current
stock, compute `tax = subtotal * 0.075`, `total = subtotal + tax -
discount`, reject `discount > subtotal` and `amount_paid < total`, then
insert the Sale and deduct each line from the branch ledger.  An error
result means nothing was persisted (all checks precede the insert). -/
def createSale (prices : Nat → Option ℚ) (inv : Ledger) (branch : Nat)
    (items : List SaleItemIn) (discount amount_paid : ℚ) :
    Except ApiErr (Sale × Ledger) :=
  match validateItems prices inv branch items with
  | .error e => .error e
  | .ok (saleItems, subtotal) =>
    let tax := subtotal * (75 / 1000)
    let total_amount := subtotal + tax - discount
    if discount > subtotal then .error .validationError
    else if amount_paid < total_amount then .error .validationError
    else
      let change_given := amount_paid - total_amount
      let sale : Sale :=
        { branch_id := branch, items := saleItems, subtotal := subtotal, tax := tax,
          discount := discount, total_amount := total_amount, amount_paid := amount_paid,
          change_given := change_given, status := .completed }
      .ok (sale, applyDeductions branch items inv)

/-- `cancel_sale` restore loop (`sale.py:584-594`): for each sold item,
fetch the inventory record at the sale's branch; when it exists add the
sold quantity back, when it does not exist the item is skipped (`if
inventory:`) — no error, no record created. -/
def restoreItems (branch : Nat) : List SaleItem → Ledger → Ledger
  | [], inv => inv
  | it :: rest, inv =>
    match findLed inv (it.product_id, branch) with
    | some q =>
      restoreItems branch rest (setLed inv (it.product_id, branch) (q + it.quantity_sold))
    | none => restoreItems branch rest inv

/-- `cancel_sale` (`sale.py:547-609`): only a `Completed` sale can be
cancelled; items are returned to the branch ledger (missing records
skipped) and the sale is marked `Cancelled`. -/
def cancelSale (sale : Sale) (inv : Ledger) : Except ApiErr (Sale × Ledger) :=
  if sale.status ≠ SaleStatus.completed then .error .invalidTransition
  else .ok ({ sale with status := .cancelled },
            restoreItems sale.branch_id sale.items inv)

/-! ## Manual stock adjustment (`app/routers/inventory.py`) -/

/-- `adjust_stock` (`inventory.py:13-84`): find the record at the manager's
branch (404 if absent), fail `InsufficientStock` when the stored quantity
is below the removal amount, otherwise save the deducted quantity.  The
`AdjustmentLog` append is outside the ledger model. -/
def adjustStock (inv : Ledger) (branch product : Nat) (quantity : Int) :
    Except ApiErr Ledger :=
  match findLed inv (product, branch) with
  | none => .error .notFound
  | some q =>
    if q < quantity then .error .insufficientStock
    else .ok (setLed inv (product, branch) (q - quantity))

/-! ## Purchase-order workflow (`app/routers/procurement.py`) -/

inductive POStatus where
  | pendingApproval
  | approved
  | sent
  | received
  | cancelled
  | rejected
  deriving DecidableEq, Repr

/-- `POItem` embedded document (`app/models/purchase_order.py`). -/
structure POItem where
  product_id : Nat
  ordered_quantity : Int
  received_quantity : Int
  unit_cost : ℚ
  total_cost : ℚ
  deriving DecidableEq, Repr

/-- The `PurchaseOrder` document fields the claims are about. -/
structure PurchaseOrder where
  supplier_id : Nat
  target_branch : Nat
  items : List POItem
  total_amount : ℚ
  status : POStatus
  deriving DecidableEq, Repr

/-- `POItemInput` of `POCreateSchema` (schema requires `quantity > 0`). -/
structure POItemIn where
  product_id : Nat
  quantity : Int
  unit_cost : ℚ
  deriving DecidableEq, Repr

/-- `ReceivedItemInput` of `ReceiveGoodsSchema` (schema requires
`received_qty ≥ 0`). -/
structure ReceivedItemIn where
  product_id : Nat
  received_qty : Int
  deriving DecidableEq, Repr

/-- `create_po` step 4: verify each product exists, build the PO items with
`received_quantity = 0`, and accumulate `total_amount`. -/
def buildPOItems (productExists : Nat → Bool) :
    List POItemIn → Except ApiErr (List POItem × ℚ)
  | [] => .ok ([], 0)
  | it :: rest =>
    if productExists it.product_id then
      match buildPOItems productExists rest with
      | .error e => .error e
      | .ok (items, total) =>
        .ok (⟨it.product_id, it.quantity, 0, it.unit_cost, (it.quantity : ℚ) * it.unit_cost⟩
               :: items,
             (it.quantity : ℚ) * it.unit_cost + total)
    else .error .notFound

/-- `create_po` (`procurement.py:21-114`): validate supplier (exists and
active) and branch, build items, then apply the approval policy:
`total < 5000 → Sent` (auto-approved), otherwise `PendingApproval`. -/
def createPO (supplierExists supplierActive branchExists : Bool)
    (productExists : Nat → Bool) (supplier branch : Nat) (items : List POItemIn) :
    Except ApiErr PurchaseOrder :=
  if !supplierExists then .error .notFound
  else if !supplierActive then .error .validationError
  else if !branchExists then .error .notFound
  else
    match buildPOItems productExists items with
    | .error e => .error e
    | .ok (poItems, total_amount) =>
      let status := if total_amount < 5000 then POStatus.sent else POStatus.pendingApproval
      .ok { supplier_id := supplier, target_branch := branch, items := poItems,
            total_amount := total_amount, status := status }

/-- `approve_po` (`procurement.py:120-162`): legal only from
`PendingApproval`; moves the order to `Approved`. -/
def approvePO (po : PurchaseOrder) : Except ApiErr PurchaseOrder :=
  if po.status ≠ POStatus.pendingApproval then .error .invalidTransition
  else .ok { po with status := .approved }

/-- `reject_po` (`procurement.py:168-208`): legal only from
`PendingApproval`; moves the order to `Rejected`. -/
def rejectPO (po : PurchaseOrder) : Except ApiErr PurchaseOrder :=
  if po.status ≠ POStatus.pendingApproval then .error .invalidTransition
  else .ok { po with status := .rejected }

/-- `receive_goods` per-item update of the PO's `items` list: the first
item matching the product gets `received_quantity += q` (the source takes
`next(item for item in po.items if …)` and mutates it). -/
def addReceived : List POItem → Nat → Int → List POItem
  | [], _, _ => []
  | it :: rest, p, q =>
    if it.product_id = p then { it with received_quantity := it.received_quantity + q } :: rest
    else it :: addReceived rest p q

/-- Is some PO item for this product present? (`next(…, None)` non-None). -/
def hasPOItem (items : List POItem) (p : Nat) : Bool :=
  items.any (fun it => it.product_id = p)

/-- `receive_goods` step 4 loop (`procurement.py:250-304`): for each
received line, find the PO item (400 if the product is not on the order),
accumulate its `received_quantity` — with **no** check against
`ordered_quantity` — look up the product (404 if missing), then save the
incremented inventory record (or insert a fresh one).  Inventory saves
happen per iteration, so a failure on a later line keeps the earlier
lines' ledger writes: the error carries the ledger as persisted so far,
while the PO document itself is only saved after the loop. -/
def receiveLoop (productExists : Nat → Bool) (branch : Nat) :
    List ReceivedItemIn → List POItem → Ledger →
    Except (ApiErr × Ledger) (List POItem × Ledger)
  | [], poItems, inv => .ok (poItems, inv)
  | r :: rest, poItems, inv =>
    if hasPOItem poItems r.product_id then
      let poItems' := addReceived poItems r.product_id r.received_qty
      if productExists r.product_id then
        let inv' :=
          match findLed inv (r.product_id, branch) with
          | some q => setLed inv (r.product_id, branch) (q + r.received_qty)
          | none => insertLed inv (r.product_id, branch) r.received_qty
        receiveLoop productExists branch rest poItems' inv'
      else .error (.notFound, inv)
    else .error (.validationError, inv)

/-- `receive_goods` (`procurement.py:214-317`): legal only from `Sent` or
`Approved`; runs the receiving loop and finally marks the order
`Received`. -/
def receiveGoods (productExists : Nat → Bool) (po : PurchaseOrder)
    (items : List ReceivedItemIn) (inv : Ledger) :
    Except (ApiErr × Ledger) (PurchaseOrder × Ledger) :=
  if po.status = POStatus.sent ∨ po.status = POStatus.approved then
    match receiveLoop productExists po.target_branch items po.items inv with
    | .error e => .error e
    | .ok (poItems', inv') =>
      .ok ({ po with items := poItems', status := .received }, inv')
  else .error (.invalidTransition, inv)

/-! ## Stock-transfer workflow (`app/routers/stock_transfer.py`) -/

inductive TransferStatus where
  | pending
  | approved
  | inTransit
  | completed
  | cancelled
  | rejected
  deriving DecidableEq, Repr

/-- One entry of `StockTransfer.items` (the `TransferItem` dicts built by
`create_transfer_request`). -/
structure TransferItem where
  product_id : Nat
  quantity_requested : Int
  quantity_approved : Int
  quantity_sent : Int
  quantity_received : Int
  deriving DecidableEq, Repr

/-- The `StockTransfer` document fields the claims are about. -/
structure StockTransfer where
  from_branch_id : Nat
  to_branch_id : Nat
  items : List TransferItem
  status : TransferStatus
  deriving DecidableEq, Repr

/-- `TransferItemCreate` (schema requires `quantity > 0`). -/
structure TransferItemIn where
  product_id : Nat
  quantity : Int
  deriving DecidableEq, Repr

/-- `create_transfer_request` item loop (`stock_transfer.py:68-98`): each
product must exist and the source branch must hold at least the requested
quantity (`if not inventory or inventory.quantity < item.quantity`);
approved/sent/received all start at 0. -/
def buildTransferItems (productExists : Nat → Bool) (inv : Ledger) (fromB : Nat) :
    List TransferItemIn → Except ApiErr (List TransferItem)
  | [] => .ok []
  | it :: rest =>
    if productExists it.product_id then
      match findLed inv (it.product_id, fromB) with
      | none => .error .insufficientStock
      | some q =>
        if q < it.quantity then .error .insufficientStock
        else
          match buildTransferItems productExists inv fromB rest with
          | .error e => .error e
          | .ok items => .ok (⟨it.product_id, it.quantity, 0, 0, 0⟩ :: items)
    else .error .notFound

/-- `create_transfer_request` (`stock_transfer.py:28-120`): source and
destination must differ; items are validated against source stock; the
transfer starts `Pending`.  Creation does not mutate the ledger. -/
def createTransfer (productExists : Nat → Bool) (inv : Ledger)
    (fromB toB : Nat) (items : List TransferItemIn) : Except ApiErr StockTransfer :=
  if fromB = toB then .error .validationError
  else
    match buildTransferItems productExists inv fromB items with
    | .error e => .error e
    | .ok titems =>
      .ok { from_branch_id := fromB, to_branch_id := toB, items := titems,
            status := .pending }

/-- One approval entry: `quantity_approved` is set on **every** item whose
product matches (nested `for` loops with no break, `stock_transfer.py:167-170`). -/
def setApproved (items : List TransferItem) (p : Nat) (q : Int) : List TransferItem :=
  items.map (fun it =>
    if it.product_id = p then { it with quantity_approved := q } else it)

def applyApprovals : List (Nat × Int) → List TransferItem → List TransferItem
  | [], items => items
  | (p, q) :: rest, items => applyApprovals rest (setApproved items p q)

/-- `approve_transfer` (`stock_transfer.py:127-189`): legal only from
`Pending`.  A non-empty `approved_quantities` list sets the given
quantities — with **no** check against `quantity_requested`; an empty or
missing list (falsy in Python) approves every requested quantity.  Moves
the transfer to `Approved`. -/
def approveTransfer (t : StockTransfer) (approvals : List (Nat × Int)) :
    Except ApiErr StockTransfer :=
  if t.status ≠ TransferStatus.pending then .error .invalidTransition
  else
    let items' :=
      if approvals.isEmpty then
        t.items.map (fun it => { it with quantity_approved := it.quantity_requested })
      else applyApprovals approvals t.items
    .ok { t with items := items', status := .approved }

/-- One ship entry sets `quantity_sent` on every matching item
(`stock_transfer.py:240-242`). -/
def setSent (items : List TransferItem) (p : Nat) (q : Int) : List TransferItem :=
  items.map (fun it =>
    if it.product_id = p then { it with quantity_sent := q } else it)

/-- `ship_transfer` per-entry loop (`stock_transfer.py:235-259`): record
`quantity_sent` on matching items (no check against `quantity_approved`,
and no check that the product is on the transfer at all), then deduct from
the source-branch inventory **when a record exists** (`if inventory:` —
absent records are silently skipped); the deduction is saved immediately,
and an `InsufficientStock` failure on a later entry keeps the earlier
entries' saved deductions (error carries the ledger so far, transfer
document unsaved). -/
def shipLoop (fromB : Nat) :
    List (Nat × Int) → List TransferItem → Ledger →
    Except (ApiErr × Ledger) (List TransferItem × Ledger)
  | [], items, inv => .ok (items, inv)
  | (p, q) :: rest, items, inv =>
    let items' := setSent items p q
    match findLed inv (p, fromB) with
    | some v =>
      if v < q then .error (.insufficientStock, inv)
      else shipLoop fromB rest items' (setLed inv (p, fromB) (v - q))
    | none => shipLoop fromB rest items' inv

/-- `ship_transfer` (`stock_transfer.py:196-272`): legal only from
`Approved`; runs the shipping loop then marks the transfer `In Transit`. -/
def shipTransfer (t : StockTransfer) (shipItems : List (Nat × Int)) (inv : Ledger) :
    Except (ApiErr × Ledger) (StockTransfer × Ledger) :=
  if t.status ≠ TransferStatus.approved then .error (.invalidTransition, inv)
  else
    match shipLoop t.from_branch_id shipItems t.items inv with
    | .error e => .error e
    | .ok (items', inv') => .ok ({ t with items := items', status := .inTransit }, inv')

/-- One receive entry sets `quantity_received` on every matching item
(`stock_transfer.py:322-325`). -/
def setReceived (items : List TransferItem) (p : Nat) (q : Int) : List TransferItem :=
  items.map (fun it =>
    if it.product_id = p then { it with quantity_received := q } else it)

/-- `receive_transfer` per-entry loop (`stock_transfer.py:318-348`): record
`quantity_received` on matching items (no check against `quantity_sent`),
then add to the destination inventory — updating the existing record or
inserting a fresh one.  The loop never fails. -/
def receiveLoopT (toB : Nat) :
    List (Nat × Int) → List TransferItem → Ledger → List TransferItem × Ledger
  | [], items, inv => (items, inv)
  | (p, q) :: rest, items, inv =>
    let items' := setReceived items p q
    let inv' :=
      match findLed inv (p, toB) with
      | some v => setLed inv (p, toB) (v + q)
      | none => insertLed inv (p, toB) q
    receiveLoopT toB rest items' inv'

/-- `receive_transfer` (`stock_transfer.py:279-361`): legal only from
`In Transit`; runs the receiving loop then marks the transfer `Completed`. -/
def receiveTransfer (t : StockTransfer) (recvItems : List (Nat × Int)) (inv : Ledger) :
    Except (ApiErr × Ledger) (StockTransfer × Ledger) :=
  if t.status ≠ TransferStatus.inTransit then .error (.invalidTransition, inv)
  else
    let (items', inv') := receiveLoopT t.to_branch_id recvItems t.items inv
    .ok ({ t with items := items', status := .completed }, inv')

/-- `reject_transfer` (`stock_transfer.py:368-412`): legal only from
`Pending`; moves the transfer to `Rejected`. -/
def rejectTransfer (t : StockTransfer) : Except ApiErr StockTransfer :=
  if t.status ≠ TransferStatus.pending then .error .invalidTransition
  else .ok { t with status := .rejected }

/-! ## Non-negativity of the ledger under sale / ship / adjust sequences -/

theorem validateItems_mem_bound {prices : Nat → Option ℚ} {inv : Ledger} {branch : Nat} :
    ∀ {items : List SaleItemIn} {sitems : List SaleItem} {sub : ℚ},
    validateItems prices inv branch items = .ok (sitems, sub) →
    ∀ it ∈ items, ∃ q, findLed inv (it.product_id, branch) = some q ∧ it.quantity ≤ q := by
  intro items
  induction items with
  | nil => intro sitems sub _ it hit; simp at hit
  | cons a rest ih =>
    intro sitems sub h it hit
    simp only [validateItems] at h
    cases hp : prices a.product_id with
    | none => simp only [hp] at h; simp at h
    | some price =>
      simp only [hp] at h
      cases hq : findLed inv (a.product_id, branch) with
      | none => simp only [hq] at h; simp at h
      | some q =>
        simp only [hq] at h
        by_cases hlt : q < a.quantity
        · rw [if_pos hlt] at h; simp at h
        · rw [if_neg hlt] at h
          cases hv : validateItems prices inv branch rest with
          | error e => simp only [hv] at h; simp at h
          | ok p =>
            rcases List.mem_cons.mp hit with hit | hit
            · exact ⟨q, hit ▸ hq, hit ▸ (by omega)⟩
            · exact ih (by rw [hv]) it hit

theorem applyDeductions_nonneg (branch : Nat) :
    ∀ (items : List SaleItemIn) (inv : Ledger), LedgerNonneg inv →
    (items.map SaleItemIn.product_id).Nodup →
    (∀ it ∈ items, ∃ q, findLed inv (it.product_id, branch) = some q ∧ it.quantity ≤ q) →
    LedgerNonneg (applyDeductions branch items inv) := by
  intro items
  induction items with
  | nil => intro inv h _ _; simpa [applyDeductions] using h
  | cons a rest ih =>
    intro inv h hnd hb
    obtain ⟨q, hq, hle⟩ := hb a (List.mem_cons_self _ _)
    simp only [applyDeductions, hq]
    rw [List.map_cons] at hnd
    have hnd' := List.nodup_cons.mp hnd
    apply ih
    · exact ledgerNonneg_setLed h _ (by omega)
    · exact hnd'.2
    · intro it hit
      obtain ⟨q', hq', hle'⟩ := hb it (List.mem_cons_of_mem _ hit)
      refine ⟨q', ?_, hle'⟩
      rw [findLed_setLed_ne]
      · exact hq'
      · intro hk
        apply hnd'.1
        have hpe : it.product_id = a.product_id := congrArg Prod.fst hk
        rw [← hpe]
        exact List.mem_map_of_mem _ hit

theorem createSale_ok_nonneg {prices : Nat → Option ℚ} {inv : Ledger} {branch : Nat}
    {items : List SaleItemIn} {discount paid : ℚ} {sale : Sale} {inv2 : Ledger}
    (h : createSale prices inv branch items discount paid = .ok (sale, inv2))
    (hn : LedgerNonneg inv) (hd : (items.map SaleItemIn.product_id).Nodup) :
    LedgerNonneg inv2 := by
  unfold createSale at h
  cases hv : validateItems prices inv branch items with
  | error e => simp only [hv] at h; simp at h
  | ok p =>
    obtain ⟨s1, s2⟩ := p
    simp only [hv] at h
    by_cases h1 : discount > s2
    · rw [if_pos h1] at h; simp at h
    · rw [if_neg h1] at h
      by_cases h2 : paid < s2 + s2 * (75 / 1000) - discount
      · rw [if_pos h2] at h; simp at h
      · rw [if_neg h2] at h
        simp only [Except.ok.injEq, Prod.mk.injEq] at h
        rw [← h.2]
        exact applyDeductions_nonneg branch items inv hn hd
          (validateItems_mem_bound hv)

theorem shipLoop_nonneg (fromB : Nat) :
    ∀ (sitems : List (Nat × Int)) (items : List TransferItem) (inv : Ledger),
    LedgerNonneg inv →
    (∀ its2 inv2, shipLoop fromB sitems items inv = .ok (its2, inv2) → LedgerNonneg inv2) ∧
    (∀ e inv2, shipLoop fromB sitems items inv = .error (e, inv2) → LedgerNonneg inv2) := by
  intro sitems
  induction sitems with
  | nil =>
    intro items inv h
    constructor
    · intro its2 inv2 heq
      simp only [shipLoop, Except.ok.injEq, Prod.mk.injEq] at heq
      rw [← heq.2]; exact h
    · intro e inv2 heq; simp [shipLoop] at heq
  | cons pq rest ih =>
    intro items inv h
    simp only [shipLoop]
    cases hf : findLed inv (pq.1, fromB) with
    | some v =>
      simp only [hf]
      by_cases hlt : v < pq.2
      · rw [if_pos hlt]
        constructor
        · intro its2 inv2 heq; simp at heq
        · intro e inv2 heq
          simp only [Except.error.injEq, Prod.mk.injEq] at heq
          rw [← heq.2]; exact h
      · rw [if_neg hlt]
        exact ih _ _ (ledgerNonneg_setLed h _ (by omega))
    | none =>
      simp only [hf]
      exact ih _ _ h

theorem shipTransfer_nonneg {t : StockTransfer} {sitems : List (Nat × Int)}
    {inv : Ledger} (h : LedgerNonneg inv) :
    (∀ t2 inv2, shipTransfer t sitems inv = .ok (t2, inv2) → LedgerNonneg inv2) ∧
    (∀ e inv2, shipTransfer t sitems inv = .error (e, inv2) → LedgerNonneg inv2) := by
  unfold shipTransfer
  by_cases hs : t.status ≠ TransferStatus.approved
  · rw [if_pos hs]
    constructor
    · intro t2 inv2 heq; simp at heq
    · intro e inv2 heq
      simp only [Except.error.injEq, Prod.mk.injEq] at heq
      rw [← heq.2]; exact h
  · rw [if_neg hs]
    constructor
    · intro t2 inv2 heq
      cases hl : shipLoop t.from_branch_id sitems t.items inv with
      | error e => rw [hl] at heq; simp at heq
      | ok r =>
        rw [hl] at heq
        simp only [Except.ok.injEq, Prod.mk.injEq] at heq
        rw [← heq.2]
        exact (shipLoop_nonneg t.from_branch_id sitems t.items inv h).1 r.1 r.2
          (by rw [hl])
    · intro e inv2 heq
      cases hl : shipLoop t.from_branch_id sitems t.items inv with
      | error er =>
        rw [hl] at heq
        simp only [Except.error.injEq] at heq
        have h2 := (shipLoop_nonneg t.from_branch_id sitems t.items inv h).2 er.1 er.2
          (by rw [hl])
        rw [heq] at h2
        exact h2
      | ok r => rw [hl] at heq; simp at heq

theorem adjustStock_nonneg {inv : Ledger} {branch product : Nat} {quantity : Int}
    {inv2 : Ledger} (h : adjustStock inv branch product quantity = .ok inv2)
    (hn : LedgerNonneg inv) : LedgerNonneg inv2 := by
  unfold adjustStock at h
  cases hf : findLed inv (product, branch) with
  | none => simp only [hf] at h; simp at h
  | some q =>
    simp only [hf] at h
    by_cases hlt : q < quantity
    · rw [if_pos hlt] at h; simp at h
    · rw [if_neg hlt] at h
      simp only [Except.ok.injEq] at h
      rw [← h]
      exact ledgerNonneg_setLed hn _ (by omega)

/-- An operation against the shared ledger, as issued by the three
deducting endpoints the never-negative claim ranges over: a sale, a
transfer shipment, and a manual adjustment. -/
inductive LedgerOp where
  | saleOp (prices : Nat → Option ℚ) (branch : Nat) (items : List SaleItemIn)
      (discount amount_paid : ℚ)
  | shipOp (t : StockTransfer) (shipItems : List (Nat × Int))
  | adjustOp (branch product : Nat) (quantity : Int)

/-- The ledger state after an operation: the new state on success, the
state as persisted so far on failure (unchanged for sales and adjustments,
partially deducted for shipments). -/
def applyLedgerOp (inv : Ledger) : LedgerOp → Ledger
  | .saleOp prices b items d p =>
    match createSale prices inv b items d p with
    | .ok r => r.2
    | .error _ => inv
  | .shipOp t sitems =>
    match shipTransfer t sitems inv with
    | .ok r => r.2
    | .error e => e.2
  | .adjustOp b p q =>
    match adjustStock inv b p q with
    | .ok inv2 => inv2
    | .error _ => inv

/-- A sale request lists each product at most once.  (Without this, the
per-line validation of `create_sale` double-counts availability and the
deduction loop can drive the quantity negative.) -/
def opDistinct : LedgerOp → Prop
  | .saleOp _ _ items _ _ => (items.map SaleItemIn.product_id).Nodup
  | .shipOp _ _ => True
  | .adjustOp _ _ _ => True

theorem applyLedgerOp_nonneg (inv : Ledger) (op : LedgerOp)
    (h : LedgerNonneg inv) (hop : opDistinct op) : LedgerNonneg (applyLedgerOp inv op) := by
  cases op with
  | saleOp prices b items d p =>
    simp only [applyLedgerOp]
    cases hc : createSale prices inv b items d p with
    | ok r =>
      obtain ⟨sl, iv⟩ := r
      exact createSale_ok_nonneg (by rw [hc]) h hop
    | error e => exact h
  | shipOp t sitems =>
    simp only [applyLedgerOp]
    cases hc : shipTransfer t sitems inv with
    | ok r => exact (shipTransfer_nonneg h).1 r.1 r.2 (by rw [hc])
    | error e => exact (shipTransfer_nonneg h).2 e.1 e.2 (by rw [hc])
  | adjustOp b p q =>
    simp only [applyLedgerOp]
    cases hc : adjustStock inv b p q with
    | ok inv2 => exact adjustStock_nonneg (by rw [hc]) h
    | error e => exact h

/-- C1 (amended): across every sequence of sale, transfer-ship and
manual-adjustment operations — each sale listing every product at most
once — a ledger whose quantities start non-negative never goes negative;
a manual deduction equal to the available quantity succeeds and leaves
exactly 0 while one exceeding it fails `InsufficientStock`; and in
Scenario B, with 10 units on hand a sale of 10 succeeds leaving quantity
0 and a subsequent sale of 1 fails `InsufficientStock`. -/
theorem c1_quantity_never_negative :
    (∀ (inv : Ledger) (ops : List LedgerOp), LedgerNonneg inv →
       (∀ op ∈ ops, opDistinct op) → LedgerNonneg (ops.foldl applyLedgerOp inv)) ∧
    (∀ (inv : Ledger) (branch product : Nat) (q : Int),
       findLed inv (product, branch) = some q →
       adjustStock inv branch product q = .ok (setLed inv (product, branch) 0)) ∧
    (∀ (inv : Ledger) (branch product : Nat) (v q : Int),
       findLed inv (product, branch) = some v → v < q →
       adjustStock inv branch product q = .error .insufficientStock) ∧
    ((createSale (fun _ => some 1) [((1, 1), 10)] 1 [⟨1, 10⟩] 0 100).toOption.map
        (fun r => (findLed r.2 (1, 1),
                   createSale (fun _ => some 1) r.2 1 [⟨1, 1⟩] 0 100)) =
      some (some 0, .error .insufficientStock)) := by
  refine ⟨?_, ?_, ?_, by
    norm_num [createSale, validateItems, applyDeductions, findLed, setLed,
      Except.toOption]⟩
  · intro inv ops hn hops
    induction ops generalizing inv with
    | nil => exact hn
    | cons op rest ih =>
      exact ih _ (applyLedgerOp_nonneg inv op hn (hops op (List.mem_cons_self _ _)))
        (fun o ho => hops o (List.mem_cons_of_mem _ ho))
  · intro inv branch product q hf
    unfold adjustStock
    rw [hf]
    simp
  · intro inv branch product v q hf hlt
    unfold adjustStock
    rw [hf]
    simp [hlt]

/-- Witness for C1: a concrete non-negative ledger and operation sequence
(a distinct-product sale, a shipment, an adjustment) stays non-negative,
and a concrete full-quantity adjustment lands exactly on 0. -/
theorem c1_witness :
    LedgerNonneg ([((1, 1), 10), ((2, 1), 3)] : Ledger) ∧
    LedgerNonneg
      ([LedgerOp.saleOp (fun _ => some 2) 1 [⟨1, 4⟩] 0 50,
        LedgerOp.shipOp ⟨1, 2, [⟨2, 3, 3, 0, 0⟩], .approved⟩ [(2, 3)],
        LedgerOp.adjustOp 1 1 6].foldl applyLedgerOp [((1, 1), 10), ((2, 1), 3)]) ∧
    adjustStock [((1, 1), 10), ((2, 1), 3)] 1 2 3 = .ok (setLed [((1, 1), 10), ((2, 1), 3)] (2, 1) 0) := by
  refine ⟨by decide, ?_, ?_⟩
  · exact (c1_quantity_never_negative.1 _ _ (by decide) (by
      intro op hop
      fin_cases hop <;> simp [opDistinct]))
  · exact c1_quantity_never_negative.2.1 _ _ _ _ (by decide)

/-- C1 counterexample: the claim as stated is false — with 10 units on
hand, a sale listing product 1 twice with quantity 10 each (total
deduction 20 > 10) does NOT fail: both line items pass the per-line check
against the original quantity, and the deduction loop leaves the stored
quantity at −10. -/
theorem c1_counterexample :
    (createSale (fun _ => some 1) [((1, 1), 10)] 1 [⟨1, 10⟩, ⟨1, 10⟩] 0 100).toOption.map
        (fun r => findLed r.2 (1, 1)) = some (some (-10)) := by
  norm_num [createSale, validateItems, applyDeductions, findLed, setLed,
    Except.toOption]

/-- C2: shipping is not all-or-nothing.  A transfer approved for two items
(5 of product 1 at 5 on hand, 5 of product 2 at 0 on hand) fails with
`InsufficientStock` on the second item — after the first item's deduction
has already been saved: the error carries a ledger in which product 1 has
dropped from 5 to 0, while the transfer document itself was never saved
(an error result leaves it untouched).  The ledger state differs from the
initial one, refuting the all-or-nothing property. -/
theorem c2_ship_partial_persistence :
    shipTransfer ⟨1, 2, [⟨1, 5, 5, 0, 0⟩, ⟨2, 5, 5, 0, 0⟩], .approved⟩ [(1, 5), (2, 5)]
        [((1, 1), 5), ((2, 1), 0)] =
      .error (.insufficientStock, [((1, 1), 0), ((2, 1), 0)]) ∧
    ([((1, 1), 0), ((2, 1), 0)] : Ledger) ≠ [((1, 1), 5), ((2, 1), 0)] := by
  constructor
  · decide
  · decide

/-- C4: over-receipt is silently accepted.  A purchase order with a single
line of `ordered_quantity = 5` accepts a receipt of 10: `receive_goods`
adds it with no check, leaving `received_quantity = 10 > 5` and 10 units
in the target branch's ledger. -/
theorem c4_over_receipt_accepted :
    receiveGoods (fun _ => true) ⟨1, 1, [⟨1, 5, 0, 1, 5⟩], 5, .sent⟩ [⟨1, 10⟩] [] =
      .ok (⟨1, 1, [⟨1, 5, 10, 1, 5⟩], 5, .received⟩, [((1, 1), 10)]) ∧
    ¬((10 : Int) ≤ 5) := by
  constructor
  · norm_num [receiveGoods, receiveLoop, hasPOItem, addReceived, findLed, insertLed]
  · decide

/-- C6: every workflow operation attempted from a non-permitted source
state fails with `InvalidTransition` and leaves the entity and the ledger
unchanged (error results carry the input ledger and do not touch the
workflow document). -/
theorem c6_invalid_transition_unchanged :
    (∀ po : PurchaseOrder, po.status ≠ .pendingApproval →
       approvePO po = .error .invalidTransition) ∧
    (∀ po : PurchaseOrder, po.status ≠ .pendingApproval →
       rejectPO po = .error .invalidTransition) ∧
    (∀ (pe : Nat → Bool) (po : PurchaseOrder) (items : List ReceivedItemIn) (inv : Ledger),
       po.status ≠ .sent → po.status ≠ .approved →
       receiveGoods pe po items inv = .error (.invalidTransition, inv)) ∧
    (∀ (t : StockTransfer) (apps : List (Nat × Int)), t.status ≠ .pending →
       approveTransfer t apps = .error .invalidTransition) ∧
    (∀ (t : StockTransfer) (sitems : List (Nat × Int)) (inv : Ledger),
       t.status ≠ .approved →
       shipTransfer t sitems inv = .error (.invalidTransition, inv)) ∧
    (∀ (t : StockTransfer) (ritems : List (Nat × Int)) (inv : Ledger),
       t.status ≠ .inTransit →
       receiveTransfer t ritems inv = .error (.invalidTransition, inv)) ∧
    (∀ t : StockTransfer, t.status ≠ .pending →
       rejectTransfer t = .error .invalidTransition) ∧
    (∀ (s : Sale) (inv : Ledger), s.status ≠ .completed →
       cancelSale s inv = .error .invalidTransition) := by
  refine ⟨?_, ?_, ?_, ?_, ?_, ?_, ?_, ?_⟩
  · intro po h; unfold approvePO; rw [if_pos h]
  · intro po h; unfold rejectPO; rw [if_pos h]
  · intro pe po items inv h1 h2
    unfold receiveGoods
    rw [if_neg (by simp [h1, h2])]
  · intro t apps h; unfold approveTransfer; rw [if_pos h]
  · intro t sitems inv h; unfold shipTransfer; rw [if_pos h]
  · intro t ritems inv h; unfold receiveTransfer; rw [if_pos h]
  · intro t h; unfold rejectTransfer; rw [if_pos h]
  · intro s inv h; unfold cancelSale; rw [if_pos h]

/-- Witness for C6: each operation, attempted at a concrete entity in a
concrete wrong state, returns `InvalidTransition` with the ledger intact. -/
theorem c6_witness :
    approvePO ⟨1, 1, [], 0, .sent⟩ = .error .invalidTransition ∧
    rejectPO ⟨1, 1, [], 0, .received⟩ = .error .invalidTransition ∧
    receiveGoods (fun _ => true) ⟨1, 1, [], 0, .rejected⟩ [] [((1, 1), 7)] =
      .error (.invalidTransition, [((1, 1), 7)]) ∧
    approveTransfer ⟨1, 2, [], .completed⟩ [] = .error .invalidTransition ∧
    shipTransfer ⟨1, 2, [], .pending⟩ [] [((1, 1), 7)] =
      .error (.invalidTransition, [((1, 1), 7)]) ∧
    receiveTransfer ⟨1, 2, [], .approved⟩ [] [((1, 1), 7)] =
      .error (.invalidTransition, [((1, 1), 7)]) ∧
    rejectTransfer ⟨1, 2, [], .inTransit⟩ = .error .invalidTransition ∧
    cancelSale ⟨1, [], 0, 0, 0, 0, 0, 0, .cancelled⟩ [((1, 1), 7)] =
      .error .invalidTransition :=
  ⟨c6_invalid_transition_unchanged.1 _ (by decide),
   c6_invalid_transition_unchanged.2.1 _ (by decide),
   c6_invalid_transition_unchanged.2.2.1 _ _ _ _ (by decide) (by decide),
   c6_invalid_transition_unchanged.2.2.2.1 _ _ (by decide),
   c6_invalid_transition_unchanged.2.2.2.2.1 _ _ _ (by decide),
   c6_invalid_transition_unchanged.2.2.2.2.2.1 _ _ _ (by decide),
   c6_invalid_transition_unchanged.2.2.2.2.2.2.1 _ (by decide),
   c6_invalid_transition_unchanged.2.2.2.2.2.2.2 _ _ (by decide)⟩

/-- C5: the money invariants of `create_sale`: on success,
`total_amount = subtotal + tax - discount` with `tax = subtotal * 0.075`,
and `change_given = amount_paid - total_amount`; with validated items, a
discount above the subtotal or a payment below the total is rejected as a
`ValidationError` (so no sale is recorded and the ledger untouched); and
Scenario D: 2 units at 10 each give subtotal 20, tax 1.5, total 21.5,
change 3.5 on a payment of 25, and cancelling restores the 2 units. -/
theorem c5_sale_money_invariants :
    (∀ (prices : Nat → Option ℚ) (inv : Ledger) (branch : Nat) (items : List SaleItemIn)
       (discount paid : ℚ) (sale : Sale) (inv2 : Ledger),
       createSale prices inv branch items discount paid = .ok (sale, inv2) →
       sale.total_amount = sale.subtotal + sale.tax - sale.discount ∧
       sale.tax = sale.subtotal * (75 / 1000) ∧
       sale.change_given = sale.amount_paid - sale.total_amount ∧
       sale.discount = discount ∧ sale.amount_paid = paid ∧ sale.status = .completed) ∧
    (∀ (prices : Nat → Option ℚ) (inv : Ledger) (branch : Nat) (items : List SaleItemIn)
       (discount paid : ℚ) (sitems : List SaleItem) (subtotal : ℚ),
       validateItems prices inv branch items = .ok (sitems, subtotal) →
       (discount > subtotal ∨ paid < subtotal + subtotal * (75 / 1000) - discount) →
       createSale prices inv branch items discount paid = .error .validationError) ∧
    ((createSale (fun _ => some 10) [((1, 1), 2)] 1 [⟨1, 2⟩] 0 25).toOption.map
        (fun r => (r.1.subtotal, r.1.tax, r.1.total_amount, r.1.change_given)) =
      some (20, 3 / 2, 43 / 2, 7 / 2)) ∧
    ((createSale (fun _ => some 10) [((1, 1), 2)] 1 [⟨1, 2⟩] 0 25).toOption.map
        (fun r => (cancelSale r.1 r.2).toOption.map
          (fun rc => (rc.1.status, findLed rc.2 (1, 1)))) =
      some (some (.cancelled, some 2))) := by
  refine ⟨?_, ?_, ?_, ?_⟩
  · intro prices inv branch items discount paid sale inv2 h
    unfold createSale at h
    cases hv : validateItems prices inv branch items with
    | error e => simp only [hv] at h; simp at h
    | ok p =>
      obtain ⟨s1, s2⟩ := p
      simp only [hv] at h
      by_cases h1 : discount > s2
      · rw [if_pos h1] at h; simp at h
      · rw [if_neg h1] at h
        by_cases h2 : paid < s2 + s2 * (75 / 1000) - discount
        · rw [if_pos h2] at h; simp at h
        · rw [if_neg h2] at h
          simp only [Except.ok.injEq, Prod.mk.injEq] at h
          rw [← h.1]
          exact ⟨rfl, rfl, rfl, rfl, rfl, rfl⟩
  · intro prices inv branch items discount paid sitems subtotal hv hor
    unfold createSale
    simp only [hv]
    rcases hor with h1 | h2
    · rw [if_pos h1]
    · by_cases h1 : discount > subtotal
      · rw [if_pos h1]
      · rw [if_neg h1, if_pos h2]
  · norm_num [createSale, validateItems, applyDeductions, findLed, setLed, Except.toOption]
  · norm_num [createSale, validateItems, applyDeductions, findLed, setLed,
      cancelSale, restoreItems, Except.toOption]

/-- Witness for C5: at the concrete Scenario-D items (subtotal 20), a
discount of 30 > 20 is rejected as a `ValidationError`. -/
theorem c5_witness :
    createSale (fun _ => some 10) [((1, 1), 2)] 1 [⟨1, 2⟩] 30 100 =
      .error .validationError := by
  refine c5_sale_money_invariants.2.1 _ _ _ _ _ _ [⟨1, 2, 10, 20⟩] 20 ?_ (Or.inl (by norm_num))
  norm_num [validateItems, findLed]

/-- C7: the purchase-order approval policy: a created order's status is
`Sent` when its total is under 5000 and `PendingApproval` otherwise;
approving a pending order moves it to `Approved`; Scenario A: a 2-item
PO totaling 4800 is auto-`Sent`, one totaling 5200 is `PendingApproval`
and becomes `Approved` on approval. -/
theorem c7_po_auto_approval :
    (∀ (se sa be : Bool) (pe : Nat → Bool) (sup br : Nat) (items : List POItemIn)
       (po : PurchaseOrder), createPO se sa be pe sup br items = .ok po →
       (po.total_amount < 5000 → po.status = .sent) ∧
       (5000 ≤ po.total_amount → po.status = .pendingApproval)) ∧
    (∀ po : PurchaseOrder, po.status = .pendingApproval →
       approvePO po = .ok { po with status := .approved }) ∧
    ((createPO true true true (fun _ => true) 1 1 [⟨1, 2, 1200⟩, ⟨2, 2, 1200⟩]).toOption.map
        (fun po => (po.total_amount, po.status)) = some (4800, .sent)) ∧
    ((createPO true true true (fun _ => true) 1 1 [⟨1, 1, 5200⟩]).toOption.map
        (fun po => (po.total_amount, po.status,
                    (approvePO po).toOption.map PurchaseOrder.status)) =
      some (5200, .pendingApproval, some .approved)) := by
  refine ⟨?_, ?_, ?_, ?_⟩
  · intro se sa be pe sup br items po h
    cases se with
    | false => simp [createPO] at h
    | true =>
      cases sa with
      | false => simp [createPO] at h
      | true =>
        cases be with
        | false => simp [createPO] at h
        | true =>
          simp only [createPO, Bool.not_true, Bool.false_eq_true, if_false] at h
          cases hb : buildPOItems pe items with
          | error e => simp only [hb] at h; simp at h
          | ok p =>
            obtain ⟨poItems, total⟩ := p
            simp only [hb] at h
            by_cases ht : total < 5000
            · rw [if_pos ht] at h
              simp only [Except.ok.injEq] at h
              rw [← h]
              exact ⟨fun _ => rfl, fun hge => absurd ht (by simpa using hge)⟩
            · rw [if_neg ht] at h
              simp only [Except.ok.injEq] at h
              rw [← h]
              exact ⟨fun hlt => absurd hlt ht, fun _ => rfl⟩
  · intro po h
    unfold approvePO
    rw [if_neg (by simp [h])]
  · norm_num [createPO, buildPOItems, Except.toOption]
  · norm_num [createPO, buildPOItems, approvePO, Except.toOption]

/-- Witness for C7: a concrete 4800-total order created `Sent`, and a
concrete pending order approved to `Approved`. -/
theorem c7_witness :
    approvePO ⟨1, 1, [], 6000, .pendingApproval⟩ = .ok ⟨1, 1, [], 6000, .approved⟩ ∧
    (⟨1, 1, [⟨1, 1, 0, 1, 1⟩], 1, .sent⟩ : PurchaseOrder).status = .sent :=
  ⟨c7_po_auto_approval.2.1 _ rfl,
   (c7_po_auto_approval.1 true true true (fun _ => true) 1 1 [⟨1, 1, 1⟩]
      ⟨1, 1, [⟨1, 1, 0, 1, 1⟩], 1, .sent⟩
      (by norm_num [createPO, buildPOItems])).1 (by norm_num)⟩

/-- C8 (amended): a single `receive_goods` call does accumulate — the
first matching line item gets `received_quantity += q` and the target
branch's ledger gains the same quantity (record updated or created) — but
the call also sets the order's status to `Received`, and any further
receive call then fails `InvalidTransition`: partial multi-call receiving
is not actually possible. -/
theorem c8_receive_accumulation_single_call :
    (∀ (it : POItem) (rest : List POItem) (q : Int),
       addReceived (it :: rest) it.product_id q =
         { it with received_quantity := it.received_quantity + q } :: rest) ∧
    (∀ (pe : Nat → Bool) (po : PurchaseOrder) (p : Nat) (q : Int) (inv : Ledger),
       (po.status = .sent ∨ po.status = .approved) →
       hasPOItem po.items p = true → pe p = true →
       receiveGoods pe po [⟨p, q⟩] inv =
         .ok ({ po with items := addReceived po.items p q, status := .received },
              match findLed inv (p, po.target_branch) with
              | some v => setLed inv (p, po.target_branch) (v + q)
              | none => insertLed inv (p, po.target_branch) q)) ∧
    (∀ (pe : Nat → Bool) (po : PurchaseOrder) (items : List ReceivedItemIn) (inv : Ledger),
       po.status = .received →
       receiveGoods pe po items inv = .error (.invalidTransition, inv)) := by
  refine ⟨?_, ?_, ?_⟩
  · intro it rest q
    simp [addReceived]
  · intro pe po p q inv hst hitem hpe
    unfold receiveGoods
    rw [if_pos hst]
    simp only [receiveLoop, hitem, if_true, hpe]
  · intro pe po items inv hst
    unfold receiveGoods
    rw [if_neg (by simp [hst])]

/-- Witness for C8: a concrete order in `Sent` state with one line item,
receiving 4 of product 1 into an empty ledger, and the same order marked
`Received` rejecting a further receive call. -/
theorem c8_witness :
    receiveGoods (fun _ => true) ⟨1, 1, [⟨1, 10, 0, 1, 10⟩], 10, .sent⟩ [⟨1, 4⟩] [] =
      .ok ({ supplier_id := 1, target_branch := 1,
             items := addReceived [⟨1, 10, 0, 1, 10⟩] 1 4, total_amount := 10,
             status := .received },
           insertLed [] (1, 1) 4) ∧
    receiveGoods (fun _ => true) ⟨1, 1, [⟨1, 10, 4, 1, 10⟩], 10, .received⟩ [⟨1, 4⟩]
        [((1, 1), 4)] = .error (.invalidTransition, [((1, 1), 4)]) :=
  ⟨c8_receive_accumulation_single_call.2.1 (fun _ => true)
      ⟨1, 1, [⟨1, 10, 0, 1, 10⟩], 10, .sent⟩ 1 4 [] (Or.inl rfl) rfl rfl,
   c8_receive_accumulation_single_call.2.2 (fun _ => true)
      ⟨1, 1, [⟨1, 10, 4, 1, 10⟩], 10, .received⟩ [⟨1, 4⟩] [((1, 1), 4)] rfl⟩

/-- C8 counterexample: a second receive call after a partial first receipt
is NOT accepted.  A PO ordering 10 of product 1, partially received with
4, ends up in status `Received`; receiving the remaining 4 then fails
`InvalidTransition` instead of accumulating. -/
theorem c8_counterexample :
    receiveGoods (fun _ => true) ⟨1, 1, [⟨1, 10, 0, 1, 10⟩], 10, .sent⟩ [⟨1, 4⟩] [] =
      .ok (⟨1, 1, [⟨1, 10, 4, 1, 10⟩], 10, .received⟩, [((1, 1), 4)]) ∧
    receiveGoods (fun _ => true) ⟨1, 1, [⟨1, 10, 4, 1, 10⟩], 10, .received⟩ [⟨1, 4⟩]
        [((1, 1), 4)] = .error (.invalidTransition, [((1, 1), 4)]) := by
  constructor
  · norm_num [receiveGoods, receiveLoop, hasPOItem, addReceived, findLed, insertLed]
  · decide

/-- `quantity_sent` entries for a product no transfer item carries leave
the item list untouched. -/
theorem setSent_not_listed {its : List TransferItem} {p : Nat}
    (h : ∀ it ∈ its, it.product_id ≠ p) (q : Int) : setSent its p q = its := by
  induction its with
  | nil => simp [setSent]
  | cons a rest ih =>
    simp only [setSent, List.map_cons]
    rw [if_neg (h a (List.mem_cons_self _ _))]
    have := ih (fun it hit => h it (List.mem_cons_of_mem _ hit))
    simp only [setSent] at this
    rw [this]

/-- C9: shipping a product that is not a line item of the transfer still
deducts it from the source branch.  For an approved transfer none of whose
items carry product `p`, a ship request of `q ≤ v` units of `p` succeeds,
leaves the transfer's items exactly as they were (no `quantity_sent`
recorded anywhere), and deducts `q` from the `(p, from_branch)` ledger
record. -/
theorem c9_ship_deducts_unlisted_product :
    ∀ (t : StockTransfer) (p : Nat) (q v : Int) (inv : Ledger),
      t.status = .approved →
      (∀ it ∈ t.items, it.product_id ≠ p) →
      findLed inv (p, t.from_branch_id) = some v → q ≤ v →
      shipTransfer t [(p, q)] inv =
        .ok ({ t with status := .inTransit },
             setLed inv (p, t.from_branch_id) (v - q)) := by
  intro t p q v inv hst hno hf hle
  unfold shipTransfer
  rw [if_neg (by simp [hst])]
  simp only [shipLoop, setSent_not_listed hno, hf]
  rw [if_neg (by omega)]

/-- Witness for C9: product 9 is not among the transfer's items, yet
shipping 2 of it deducts the source record from 4 to 2 and the transfer
items keep no trace of it. -/
theorem c9_witness :
    shipTransfer ⟨1, 2, [⟨3, 5, 5, 0, 0⟩], .approved⟩ [(9, 2)] [((9, 1), 4)] =
      .ok ({ from_branch_id := 1, to_branch_id := 2, items := [⟨3, 5, 5, 0, 0⟩],
             status := .inTransit },
           setLed [((9, 1), 4)] (9, 1) 2) :=
  c9_ship_deducts_unlisted_product ⟨1, 2, [⟨3, 5, 5, 0, 0⟩], .approved⟩ 9 2 4
    [((9, 1), 4)] rfl (by decide) rfl (by decide)

/-- Keys absent from the ledger stay absent through the cancel-sale
restore loop: it only rewrites existing records, never creates one. -/
theorem restoreItems_none (branch : Nat) :
    ∀ (items : List SaleItem) (inv : Ledger) (k : Nat × Nat),
      findLed inv k = none → findLed (restoreItems branch items inv) k = none := by
  intro items
  induction items with
  | nil => intro inv k h; simpa [restoreItems] using h
  | cons a rest ih =>
    intro inv k h
    simp only [restoreItems]
    cases hf : findLed inv (a.product_id, branch) with
    | some q =>
      apply ih
      have hs := findLed_setLed_isSome inv (a.product_id, branch) k (q + a.quantity_sold)
      rw [h] at hs
      simpa using hs
    | none => exact ih inv k h

/-- C10: cancelling a `Completed` sale always succeeds and marks it
`Cancelled`, even when line items' inventory records are missing: those
items are silently skipped — a key absent from the ledger before the
cancellation is still absent afterwards, and no error is reported. -/
theorem c10_cancel_skips_missing_records :
    ∀ (s : Sale) (inv : Ledger), s.status = .completed →
      cancelSale s inv =
        .ok ({ s with status := .cancelled }, restoreItems s.branch_id s.items inv) ∧
      (∀ k, findLed inv k = none →
        findLed (restoreItems s.branch_id s.items inv) k = none) := by
  intro s inv hst
  constructor
  · unfold cancelSale
    rw [if_neg (by simp [hst])]
  · intro k hk
    exact restoreItems_none s.branch_id s.items inv k hk

/-- Witness for C10: a completed sale of 2 units of product 5 whose
inventory record no longer exists is cancelled successfully; the `(5, 1)`
key is still absent afterwards (nothing was restored). -/
theorem c10_witness :
    cancelSale ⟨1, [⟨5, 2, 10, 20⟩], 20, 0, 0, 20, 25, 5, .completed⟩ [((1, 1), 3)] =
      .ok ({ branch_id := 1, items := [⟨5, 2, 10, 20⟩], subtotal := 20, tax := 0,
             discount := 0, total_amount := 20, amount_paid := 25, change_given := 5,
             status := .cancelled },
           restoreItems 1 [⟨5, 2, 10, 20⟩] [((1, 1), 3)]) ∧
    findLed (restoreItems 1 [⟨5, 2, 10, 20⟩] [((1, 1), 3)]) (5, 1) = none :=
  ⟨(c10_cancel_skips_missing_records ⟨1, [⟨5, 2, 10, 20⟩], 20, 0, 0, 20, 25, 5, .completed⟩
      [((1, 1), 3)] rfl).1,
   (c10_cancel_skips_missing_records ⟨1, [⟨5, 2, 10, 20⟩], 20, 0, 0, 20, 25, 5, .completed⟩
      [((1, 1), 3)] rfl).2 (5, 1) (by decide)⟩

/-! ## The transfer quantity chain (C3) -/

/-- The per-item quantity chain of the spec:
`received ≤ sent ≤ approved ≤ requested`. -/
def chainOK (it : TransferItem) : Prop :=
  it.quantity_received ≤ it.quantity_sent ∧
  it.quantity_sent ≤ it.quantity_approved ∧
  it.quantity_approved ≤ it.quantity_requested

/-- An approval request whose quantities are non-negative (the schema's
`gt 0`) and within each matching item's requested quantity. -/
def approvalsBounded (t : StockTransfer) (apps : List (Nat × Int)) : Prop :=
  ∀ pq ∈ apps, 0 ≤ pq.2 ∧
    ∀ it ∈ t.items, it.product_id = pq.1 → pq.2 ≤ it.quantity_requested

/-- A ship request whose quantities are non-negative and within each
matching item's approved quantity. -/
def shipBounded (t : StockTransfer) (sitems : List (Nat × Int)) : Prop :=
  ∀ pq ∈ sitems, 0 ≤ pq.2 ∧
    ∀ it ∈ t.items, it.product_id = pq.1 → pq.2 ≤ it.quantity_approved

/-- A receive request whose quantities are non-negative and within each
matching item's sent quantity. -/
def recvBounded (t : StockTransfer) (ritems : List (Nat × Int)) : Prop :=
  ∀ pq ∈ ritems, 0 ≤ pq.2 ∧
    ∀ it ∈ t.items, it.product_id = pq.1 → pq.2 ≤ it.quantity_sent

/-- Transfers reachable through the workflow endpoints when every call
supplies positive quantities (the schemas' `gt 0`) that respect the bound
of the preceding stage — the proviso the amended claim adds, since the
endpoints themselves do not enforce the bounds. -/
inductive TReach : StockTransfer → Prop where
  | created (pe : Nat → Bool) (inv : Ledger) (fromB toB : Nat)
      (itemsIn : List TransferItemIn) (t : StockTransfer)
      (hpos : ∀ it ∈ itemsIn, 0 ≤ it.quantity)
      (h : createTransfer pe inv fromB toB itemsIn = .ok t) : TReach t
  | approved (t : StockTransfer) (apps : List (Nat × Int)) (t2 : StockTransfer)
      (hr : TReach t) (hb : approvalsBounded t apps)
      (h : approveTransfer t apps = .ok t2) : TReach t2
  | shipped (t : StockTransfer) (sitems : List (Nat × Int)) (inv : Ledger)
      (t2 : StockTransfer) (inv2 : Ledger)
      (hr : TReach t) (hb : shipBounded t sitems)
      (h : shipTransfer t sitems inv = .ok (t2, inv2)) : TReach t2
  | received (t : StockTransfer) (ritems : List (Nat × Int)) (inv : Ledger)
      (t2 : StockTransfer) (inv2 : Ledger)
      (hr : TReach t) (hb : recvBounded t ritems)
      (h : receiveTransfer t ritems inv = .ok (t2, inv2)) : TReach t2
  | rejected (t : StockTransfer) (t2 : StockTransfer)
      (hr : TReach t) (h : rejectTransfer t = .ok t2) : TReach t2

/-- The invariant carried through the workflow: the chain holds, received
quantities are non-negative, and the stages that have not happened yet
hold their quantities at 0. -/
def TStageInv (t : StockTransfer) : Prop :=
  (∀ it ∈ t.items, 0 ≤ it.quantity_received ∧ chainOK it) ∧
  (t.status = .pending → ∀ it ∈ t.items,
     it.quantity_approved = 0 ∧ it.quantity_sent = 0 ∧ it.quantity_received = 0) ∧
  (t.status = .approved → ∀ it ∈ t.items,
     it.quantity_sent = 0 ∧ it.quantity_received = 0) ∧
  (t.status = .inTransit → ∀ it ∈ t.items, it.quantity_received = 0)

theorem buildTransferItems_facts {pe : Nat → Bool} {inv : Ledger} {fromB : Nat} :
    ∀ {itemsIn : List TransferItemIn} {titems : List TransferItem},
    buildTransferItems pe inv fromB itemsIn = .ok titems →
    (∀ it ∈ itemsIn, 0 ≤ it.quantity) →
    ∀ tit ∈ titems, tit.quantity_approved = 0 ∧ tit.quantity_sent = 0 ∧
      tit.quantity_received = 0 ∧ 0 ≤ tit.quantity_requested := by
  intro itemsIn
  induction itemsIn with
  | nil =>
    intro titems h _ tit hit
    simp only [buildTransferItems, Except.ok.injEq] at h
    rw [← h] at hit
    simp at hit
  | cons a rest ih =>
    intro titems h hpos tit hit
    simp only [buildTransferItems] at h
    by_cases hpe : pe a.product_id
    · rw [if_pos hpe] at h
      cases hf : findLed inv (a.product_id, fromB) with
      | none => simp only [hf] at h; simp at h
      | some q =>
        simp only [hf] at h
        by_cases hlt : q < a.quantity
        · rw [if_pos hlt] at h; simp at h
        · rw [if_neg hlt] at h
          cases hb : buildTransferItems pe inv fromB rest with
          | error e => simp only [hb] at h; simp at h
          | ok its =>
            simp only [hb, Except.ok.injEq] at h
            rw [← h] at hit
            rcases List.mem_cons.mp hit with hit | hit
            · rw [hit]
              exact ⟨rfl, rfl, rfl, hpos a (List.mem_cons_self _ _)⟩
            · exact ih hb (fun x hx => hpos x (List.mem_cons_of_mem _ hx)) tit hit
    · rw [if_neg hpe] at h; simp at h

theorem mem_setApproved {items : List TransferItem} {p : Nat} {q : Int} {it2 : TransferItem}
    (h : it2 ∈ setApproved items p q) :
    ∃ it ∈ items, it2.product_id = it.product_id ∧
      it2.quantity_requested = it.quantity_requested ∧
      it2.quantity_sent = it.quantity_sent ∧
      it2.quantity_received = it.quantity_received ∧
      ((it.product_id = p ∧ it2.quantity_approved = q) ∨ it2 = it) := by
  unfold setApproved at h
  rcases List.mem_map.mp h with ⟨it, hit, heq⟩
  by_cases hp : it.product_id = p
  · rw [if_pos hp] at heq
    refine ⟨it, hit, ?_⟩
    rw [← heq]
    exact ⟨rfl, rfl, rfl, rfl, Or.inl ⟨hp, rfl⟩⟩
  · rw [if_neg hp] at heq
    exact ⟨it, hit, heq ▸ ⟨rfl, rfl, rfl, rfl, Or.inr rfl⟩⟩

theorem mem_setSent {items : List TransferItem} {p : Nat} {q : Int} {it2 : TransferItem}
    (h : it2 ∈ setSent items p q) :
    ∃ it ∈ items, it2.product_id = it.product_id ∧
      it2.quantity_requested = it.quantity_requested ∧
      it2.quantity_approved = it.quantity_approved ∧
      it2.quantity_received = it.quantity_received ∧
      ((it.product_id = p ∧ it2.quantity_sent = q) ∨ it2 = it) := by
  unfold setSent at h
  rcases List.mem_map.mp h with ⟨it, hit, heq⟩
  by_cases hp : it.product_id = p
  · rw [if_pos hp] at heq
    refine ⟨it, hit, ?_⟩
    rw [← heq]
    exact ⟨rfl, rfl, rfl, rfl, Or.inl ⟨hp, rfl⟩⟩
  · rw [if_neg hp] at heq
    exact ⟨it, hit, heq ▸ ⟨rfl, rfl, rfl, rfl, Or.inr rfl⟩⟩

theorem mem_setReceived {items : List TransferItem} {p : Nat} {q : Int} {it2 : TransferItem}
    (h : it2 ∈ setReceived items p q) :
    ∃ it ∈ items, it2.product_id = it.product_id ∧
      it2.quantity_requested = it.quantity_requested ∧
      it2.quantity_approved = it.quantity_approved ∧
      it2.quantity_sent = it.quantity_sent ∧
      ((it.product_id = p ∧ it2.quantity_received = q) ∨ it2 = it) := by
  unfold setReceived at h
  rcases List.mem_map.mp h with ⟨it, hit, heq⟩
  by_cases hp : it.product_id = p
  · rw [if_pos hp] at heq
    refine ⟨it, hit, ?_⟩
    rw [← heq]
    exact ⟨rfl, rfl, rfl, rfl, Or.inl ⟨hp, rfl⟩⟩
  · rw [if_neg hp] at heq
    exact ⟨it, hit, heq ▸ ⟨rfl, rfl, rfl, rfl, Or.inr rfl⟩⟩

theorem applyApprovals_inv :
    ∀ (apps : List (Nat × Int)) (items : List TransferItem),
    (∀ it ∈ items, it.quantity_sent = 0 ∧ it.quantity_received = 0 ∧
       0 ≤ it.quantity_approved ∧ it.quantity_approved ≤ it.quantity_requested) →
    (∀ pq ∈ apps, 0 ≤ pq.2 ∧
       ∀ it ∈ items, it.product_id = pq.1 → pq.2 ≤ it.quantity_requested) →
    ∀ it ∈ applyApprovals apps items,
      it.quantity_sent = 0 ∧ it.quantity_received = 0 ∧
      0 ≤ it.quantity_approved ∧ it.quantity_approved ≤ it.quantity_requested := by
  intro apps
  induction apps with
  | nil => intro items h _ it hit; exact h it hit
  | cons pq rest ih =>
    intro items h hb
    simp only [applyApprovals]
    apply ih
    · intro it2 hit2
      rcases mem_setApproved hit2 with ⟨it, hit, hpid, hreq, hsent, hrecv, hca⟩
      obtain ⟨hs, hr, hap0, hapr⟩ := h it hit
      rcases hca with ⟨hmatch, happ⟩ | heq
      · refine ⟨hsent ▸ hs, hrecv ▸ hr, ?_, ?_⟩
        · rw [happ]
          exact (hb pq (List.mem_cons_self _ _)).1
        · rw [happ, hreq]
          exact (hb pq (List.mem_cons_self _ _)).2 it hit hmatch
      · rw [heq]
        exact ⟨hs, hr, hap0, hapr⟩
    · intro pq2 hpq2
      refine ⟨(hb pq2 (List.mem_cons_of_mem _ hpq2)).1, ?_⟩
      intro it2 hit2 hpid2
      rcases mem_setApproved hit2 with ⟨it, hit, hpid, hreq, _, _, _⟩
      rw [hreq]
      exact (hb pq2 (List.mem_cons_of_mem _ hpq2)).2 it hit (hpid ▸ hpid2)

theorem shipLoop_items_inv (fromB : Nat) :
    ∀ (sitems : List (Nat × Int)) (items : List TransferItem) (inv : Ledger)
      {items2 : List TransferItem} {inv2 : Ledger},
    (∀ it ∈ items, it.quantity_received = 0 ∧ 0 ≤ it.quantity_sent ∧
       it.quantity_sent ≤ it.quantity_approved ∧
       it.quantity_approved ≤ it.quantity_requested) →
    (∀ pq ∈ sitems, 0 ≤ pq.2 ∧
       ∀ it ∈ items, it.product_id = pq.1 → pq.2 ≤ it.quantity_approved) →
    shipLoop fromB sitems items inv = .ok (items2, inv2) →
    ∀ it ∈ items2, it.quantity_received = 0 ∧ 0 ≤ it.quantity_sent ∧
      it.quantity_sent ≤ it.quantity_approved ∧
      it.quantity_approved ≤ it.quantity_requested := by
  intro sitems
  induction sitems with
  | nil =>
    intro items inv items2 inv2 h _ heq
    simp only [shipLoop, Except.ok.injEq, Prod.mk.injEq] at heq
    rw [← heq.1]
    exact h
  | cons pq rest ih =>
    intro items inv items2 inv2 h hb heq
    have hstep : ∀ it ∈ setSent items pq.1 pq.2,
        it.quantity_received = 0 ∧ 0 ≤ it.quantity_sent ∧
        it.quantity_sent ≤ it.quantity_approved ∧
        it.quantity_approved ≤ it.quantity_requested := by
      intro it2 hit2
      rcases mem_setSent hit2 with ⟨it, hit, hpid, hreq, happ, hrecv, hca⟩
      obtain ⟨hr, hs0, hsa, har⟩ := h it hit
      rcases hca with ⟨hmatch, hsent⟩ | hid
      · refine ⟨hrecv ▸ hr, ?_, ?_, happ ▸ hreq ▸ har⟩
        · rw [hsent]
          exact (hb pq (List.mem_cons_self _ _)).1
        · rw [hsent, happ]
          exact (hb pq (List.mem_cons_self _ _)).2 it hit hmatch
      · rw [hid]
        exact ⟨hr, hs0, hsa, har⟩
    have hbstep : ∀ pq2 ∈ rest, 0 ≤ pq2.2 ∧
        ∀ it ∈ setSent items pq.1 pq.2, it.product_id = pq2.1 →
          pq2.2 ≤ it.quantity_approved := by
      intro pq2 hpq2
      refine ⟨(hb pq2 (List.mem_cons_of_mem _ hpq2)).1, ?_⟩
      intro it2 hit2 hpid2
      rcases mem_setSent hit2 with ⟨it, hit, hpid, _, happ, _, _⟩
      rw [happ]
      exact (hb pq2 (List.mem_cons_of_mem _ hpq2)).2 it hit (hpid ▸ hpid2)
    simp only [shipLoop] at heq
    cases hf : findLed inv (pq.1, fromB) with
    | some v =>
      simp only [hf] at heq
      by_cases hlt : v < pq.2
      · rw [if_pos hlt] at heq; simp at heq
      · rw [if_neg hlt] at heq
        exact ih _ _ hstep hbstep heq
    | none =>
      simp only [hf] at heq
      exact ih _ _ hstep hbstep heq

theorem receiveLoopT_items_inv (toB : Nat) :
    ∀ (ritems : List (Nat × Int)) (items : List TransferItem) (inv : Ledger),
    (∀ it ∈ items, 0 ≤ it.quantity_received ∧
       it.quantity_received ≤ it.quantity_sent ∧
       it.quantity_sent ≤ it.quantity_approved ∧
       it.quantity_approved ≤ it.quantity_requested) →
    (∀ pq ∈ ritems, 0 ≤ pq.2 ∧
       ∀ it ∈ items, it.product_id = pq.1 → pq.2 ≤ it.quantity_sent) →
    ∀ it ∈ (receiveLoopT toB ritems items inv).1, 0 ≤ it.quantity_received ∧
      it.quantity_received ≤ it.quantity_sent ∧
      it.quantity_sent ≤ it.quantity_approved ∧
      it.quantity_approved ≤ it.quantity_requested := by
  intro ritems
  induction ritems with
  | nil => intro items inv h _; exact h
  | cons pq rest ih =>
    intro items inv h hb
    have hstep : ∀ it ∈ setReceived items pq.1 pq.2,
        0 ≤ it.quantity_received ∧ it.quantity_received ≤ it.quantity_sent ∧
        it.quantity_sent ≤ it.quantity_approved ∧
        it.quantity_approved ≤ it.quantity_requested := by
      intro it2 hit2
      rcases mem_setReceived hit2 with ⟨it, hit, hpid, hreq, happ, hsent, hca⟩
      obtain ⟨hr0, hrs, hsa, har⟩ := h it hit
      rcases hca with ⟨hmatch, hrecv⟩ | hid
      · refine ⟨?_, ?_, hsent ▸ happ ▸ hsa, happ ▸ hreq ▸ har⟩
        · rw [hrecv]
          exact (hb pq (List.mem_cons_self _ _)).1
        · rw [hrecv, hsent]
          exact (hb pq (List.mem_cons_self _ _)).2 it hit hmatch
      · rw [hid]
        exact ⟨hr0, hrs, hsa, har⟩
    have hbstep : ∀ pq2 ∈ rest, 0 ≤ pq2.2 ∧
        ∀ it ∈ setReceived items pq.1 pq.2, it.product_id = pq2.1 →
          pq2.2 ≤ it.quantity_sent := by
      intro pq2 hpq2
      refine ⟨(hb pq2 (List.mem_cons_of_mem _ hpq2)).1, ?_⟩
      intro it2 hit2 hpid2
      rcases mem_setReceived hit2 with ⟨it, hit, hpid, _, _, hsent, _⟩
      rw [hsent]
      exact (hb pq2 (List.mem_cons_of_mem _ hpq2)).2 it hit (hpid ▸ hpid2)
    simp only [receiveLoopT]
    exact ih _ _ hstep hbstep

theorem approve_items_facts {t : StockTransfer} {apps : List (Nat × Int)}
    (hfacts : ∀ it ∈ t.items, it.quantity_approved = 0 ∧ it.quantity_sent = 0 ∧
      it.quantity_received = 0)
    (hchain : ∀ it ∈ t.items, 0 ≤ it.quantity_received ∧ chainOK it)
    (hb : approvalsBounded t apps) :
    ∀ it2 ∈ (if apps.isEmpty then
               t.items.map (fun it => { it with quantity_approved := it.quantity_requested })
             else applyApprovals apps t.items),
      it2.quantity_sent = 0 ∧ it2.quantity_received = 0 ∧
      0 ≤ it2.quantity_approved ∧ it2.quantity_approved ≤ it2.quantity_requested := by
  by_cases hemp : apps.isEmpty
  · rw [if_pos hemp]
    intro it2 hit2
    rcases List.mem_map.mp hit2 with ⟨it, hit, heq⟩
    obtain ⟨ha0, hs0, hr0⟩ := hfacts it hit
    obtain ⟨_, _, _, har⟩ := hchain it hit
    have hq : 0 ≤ it.quantity_requested := by omega
    rw [← heq]
    exact ⟨hs0, hr0, hq, le_refl _⟩
  · rw [if_neg hemp]
    apply applyApprovals_inv
    · intro it hit
      obtain ⟨ha0, hs0, hr0⟩ := hfacts it hit
      obtain ⟨_, _, _, har⟩ := hchain it hit
      exact ⟨hs0, hr0, by omega, har⟩
    · exact hb

theorem treach_stage {t : StockTransfer} (h : TReach t) : TStageInv t := by
  induction h with
  | created pe inv fromB toB itemsIn t hpos heq =>
    unfold createTransfer at heq
    by_cases hft : fromB = toB
    · rw [if_pos hft] at heq; simp at heq
    · rw [if_neg hft] at heq
      cases hb : buildTransferItems pe inv fromB itemsIn with
      | error e => simp only [hb] at heq; simp at heq
      | ok titems =>
        simp only [hb, Except.ok.injEq] at heq
        have hfacts := buildTransferItems_facts hb hpos
        rw [← heq]
        refine ⟨?_, ?_, ?_, ?_⟩
        · intro it hit
          obtain ⟨ha, hs, hr, hq⟩ := hfacts it hit
          exact ⟨by omega, by omega, by omega, by omega⟩
        · intro _ it hit
          obtain ⟨ha, hs, hr, _⟩ := hfacts it hit
          exact ⟨ha, hs, hr⟩
        · intro hst; simp at hst
        · intro hst; simp at hst
  | approved t apps t2 hr hb heq ih =>
    unfold approveTransfer at heq
    by_cases hst : t.status ≠ TransferStatus.pending
    · rw [if_pos hst] at heq; simp at heq
    · rw [if_neg hst] at heq
      push_neg at hst
      simp only [Except.ok.injEq] at heq
      obtain ⟨hchain, hpend, _, _⟩ := ih
      have hfacts := approve_items_facts (hpend hst) hchain hb
      rw [← heq]
      refine ⟨?_, ?_, ?_, ?_⟩
      · intro it hit
        obtain ⟨hs, hrc, ha0, har⟩ := hfacts it hit
        exact ⟨by omega, by omega, by omega, by omega⟩
      · intro hst2; simp at hst2
      · intro _ it hit
        obtain ⟨hs, hrc, _, _⟩ := hfacts it hit
        exact ⟨hs, hrc⟩
      · intro hst2; simp at hst2
  | shipped t sitems inv t2 inv2 hr hb heq ih =>
    unfold shipTransfer at heq
    by_cases hst : t.status ≠ TransferStatus.approved
    · rw [if_pos hst] at heq; simp at heq
    · rw [if_neg hst] at heq
      push_neg at hst
      cases hl : shipLoop t.from_branch_id sitems t.items inv with
      | error e => simp only [hl] at heq; simp at heq
      | ok r =>
        simp only [hl, Except.ok.injEq, Prod.mk.injEq] at heq
        obtain ⟨hchain, _, happr, _⟩ := ih
        have hfacts := shipLoop_items_inv t.from_branch_id sitems t.items inv
          (fun it hit => by
            obtain ⟨hs0, hr0⟩ := happr hst it hit
            obtain ⟨_, _, hsa, har⟩ := hchain it hit
            exact ⟨hr0, by omega, hsa, har⟩)
          hb (by rw [hl])
        rw [← heq.1]
        refine ⟨?_, ?_, ?_, ?_⟩
        · intro it hit
          obtain ⟨hrc, hs0, hsa, har⟩ := hfacts it hit
          exact ⟨by omega, by omega, by omega, by omega⟩
        · intro hst2; simp at hst2
        · intro hst2; simp at hst2
        · intro _ it hit
          exact (hfacts it hit).1
  | received t ritems inv t2 inv2 hr hb heq ih =>
    unfold receiveTransfer at heq
    by_cases hst : t.status ≠ TransferStatus.inTransit
    · rw [if_pos hst] at heq; simp at heq
    · rw [if_neg hst] at heq
      push_neg at hst
      simp only [Except.ok.injEq, Prod.mk.injEq] at heq
      obtain ⟨hchain, _, _, hintr⟩ := ih
      have hfacts := receiveLoopT_items_inv t.to_branch_id ritems t.items inv
        (fun it hit => by
          obtain hr0 := hintr hst it hit
          obtain ⟨hrs, hsa, har⟩ := (hchain it hit).2
          exact ⟨by omega, hrs, hsa, har⟩)
        hb
      rw [← heq.1]
      refine ⟨?_, ?_, ?_, ?_⟩
      · intro it hit
        obtain ⟨hr0, hrs, hsa, har⟩ := hfacts it hit
        exact ⟨hr0, hrs, hsa, har⟩
      · intro hst2; simp at hst2
      · intro hst2; simp at hst2
      · intro hst2; simp at hst2
  | rejected t t2 hr heq ih =>
    unfold rejectTransfer at heq
    by_cases hst : t.status ≠ TransferStatus.pending
    · rw [if_pos hst] at heq; simp at heq
    · rw [if_neg hst] at heq
      simp only [Except.ok.injEq] at heq
      obtain ⟨hchain, _, _, _⟩ := ih
      rw [← heq]
      refine ⟨fun it hit => hchain it hit, ?_, ?_, ?_⟩
      · intro hst2; simp at hst2
      · intro hst2; simp at hst2
      · intro hst2; simp at hst2

/-- C3 (amended): at every state reachable through create / approve /
ship / receive / reject, PROVIDED each call's supplied quantities are
positive and within the preceding stage's bound for every matching item
(the endpoints themselves enforce none of these bounds — see the
counterexample), the per-item chain
`quantity_received ≤ quantity_sent ≤ quantity_approved ≤
quantity_requested` holds. -/
theorem c3_transfer_quantity_chain :
    ∀ t : StockTransfer, TReach t →
      ∀ it ∈ t.items, it.quantity_received ≤ it.quantity_sent ∧
        it.quantity_sent ≤ it.quantity_approved ∧
        it.quantity_approved ≤ it.quantity_requested :=
  fun _ h it hit => ((treach_stage h).1 it hit).2

/-- Witness for C3: the chain holds at a concretely created transfer. -/
theorem c3_witness :
    (⟨1, 5, 0, 0, 0⟩ : TransferItem).quantity_received ≤
      (⟨1, 5, 0, 0, 0⟩ : TransferItem).quantity_sent ∧
    (⟨1, 5, 0, 0, 0⟩ : TransferItem).quantity_sent ≤
      (⟨1, 5, 0, 0, 0⟩ : TransferItem).quantity_approved ∧
    (⟨1, 5, 0, 0, 0⟩ : TransferItem).quantity_approved ≤
      (⟨1, 5, 0, 0, 0⟩ : TransferItem).quantity_requested :=
  c3_transfer_quantity_chain ⟨1, 2, [⟨1, 5, 0, 0, 0⟩], .pending⟩
    (TReach.created (fun _ => true) [((1, 1), 10)] 1 2 [⟨1, 5⟩] _
      (by decide) (by decide))
    ⟨1, 5, 0, 0, 0⟩ (by simp)

/-- C3 counterexample: the operations do NOT enforce the chain — approving
a pending transfer whose only item requests 5 with an approved quantity of
100 succeeds and records `quantity_approved = 100 > 5`. -/
theorem c3_counterexample :
    approveTransfer ⟨1, 2, [⟨1, 5, 0, 0, 0⟩], .pending⟩ [(1, 100)] =
      .ok ⟨1, 2, [⟨1, 5, 100, 0, 0⟩], .approved⟩ ∧
    ¬((100 : Int) ≤ 5) := by
  constructor
  · decide
  · decide
